import Mathlib

/-!
# Mediabin: verification of the daemon core against its specification

A shallow embedding of the mediabin repository's core: the content-address
scheme of `ytdlp_downloader/downloader.py`, the ledger operations and the
download scheduler of `mediabin_daemon.py`, the IPC output router of
`daemon/daemon.py`, and the schema migrator of `migration/migrate.py`.
Machine integers are modelled as `Nat` with explicit reduction modulo `2^32`
where the Python code relies on fixed-width arithmetic (MD5).
-/

set_option maxRecDepth 4000

namespace Mediabin

/-! ## MD5, hex and base32 (used by `CustomDownloader.process_info`)

`process_info` computes `hashlib.md5(unique_id_str.encode('utf-8'))`, its
hex digest, and `base64.b32encode(...).rstrip('=').upper()`.  We embed MD5
(RFC 1321) over byte lists, with 32-bit words as `Nat` reduced mod `2^32`. -/

/-- Reduce to a 32-bit word. -/
def w32 (n : Nat) : Nat := n % 4294967296

/-- 32-bit left rotation.  The two summands occupy disjoint bit ranges, so
addition coincides with bitwise or. -/
def rotl32 (x s : Nat) : Nat := w32 (x <<< s) + (x >>> (32 - s))

/-- Bitwise complement within 32 bits. -/
def not32 (x : Nat) : Nat := Nat.xor x 4294967295

/-- MD5 round function F (rounds 0–15). -/
def mdF (b c d : Nat) : Nat := Nat.lor (Nat.land b c) (Nat.land (not32 b) d)

/-- MD5 round function G (rounds 16–31). -/
def mdG (b c d : Nat) : Nat := Nat.lor (Nat.land d b) (Nat.land (not32 d) c)

/-- MD5 round function H (rounds 32–47). -/
def mdH (b c d : Nat) : Nat := Nat.xor b (Nat.xor c d)

/-- MD5 round function I (rounds 48–63). -/
def mdI (b c d : Nat) : Nat := Nat.xor c (Nat.lor b (not32 d))

/-- The 64 MD5 sine-derived constants. -/
def mdK : List Nat :=
  [0xd76aa478, 0xe8c7b756, 0x242070db, 0xc1bdceee,
   0xf57c0faf, 0x4787c62a, 0xa8304613, 0xfd469501,
   0x698098d8, 0x8b44f7af, 0xffff5bb1, 0x895cd7be,
   0x6b901122, 0xfd987193, 0xa679438e, 0x49b40821,
   0xf61e2562, 0xc040b340, 0x265e5a51, 0xe9b6c7aa,
   0xd62f105d, 0x02441453, 0xd8a1e681, 0xe7d3fbc8,
   0x21e1cde6, 0xc33707d6, 0xf4d50d87, 0x455a14ed,
   0xa9e3e905, 0xfcefa3f8, 0x676f02d9, 0x8d2a4c8a,
   0xfffa3942, 0x8771f681, 0x6d9d6122, 0xfde5380c,
   0xa4beea44, 0x4bdecfa9, 0xf6bb4b60, 0xbebfbc70,
   0x289b7ec6, 0xeaa127fa, 0xd4ef3085, 0x04881d05,
   0xd9d4d039, 0xe6db99e5, 0x1fa27cf8, 0xc4ac5665,
   0xf4292244, 0x432aff97, 0xab9423a7, 0xfc93a039,
   0x655b59c3, 0x8f0ccc92, 0xffeff47d, 0x85845dd1,
   0x6fa87e4f, 0xfe2ce6e0, 0xa3014314, 0x4e0811a1,
   0xf7537e82, 0xbd3af235, 0x2ad7d2bb, 0xeb86d391]

/-- The 64 MD5 per-round left-rotation amounts. -/
def mdS : List Nat :=
  [7, 12, 17, 22, 7, 12, 17, 22, 7, 12, 17, 22, 7, 12, 17, 22,
   5,  9, 14, 20, 5,  9, 14, 20, 5,  9, 14, 20, 5,  9, 14, 20,
   4, 11, 16, 23, 4, 11, 16, 23, 4, 11, 16, 23, 4, 11, 16, 23,
   6, 10, 15, 21, 6, 10, 15, 21, 6, 10, 15, 21, 6, 10, 15, 21]

/-- One MD5 round on state `(a, b, c, d)` with message words `m`. -/
def md5Round (m : List Nat) (st : Nat × Nat × Nat × Nat) (i : Nat) :
    Nat × Nat × Nat × Nat :=
  let (a, b, c, d) := st
  let fg : Nat × Nat :=
    if i < 16 then (mdF b c d, i)
    else if i < 32 then (mdG b c d, (5 * i + 1) % 16)
    else if i < 48 then (mdH b c d, (3 * i + 5) % 16)
    else (mdI b c d, (7 * i) % 16)
  let tmp := w32 (a + fg.1 + (mdK.getD i 0) + m.getD fg.2 0)
  (d, w32 (b + rotl32 tmp (mdS.getD i 0)), b, c)

/-- Split a 64-byte block into its 16 little-endian 32-bit words. -/
def blockWords (block : List Nat) : List Nat :=
  (List.range 16).map fun j =>
    block.getD (4 * j) 0 + 256 * block.getD (4 * j + 1) 0 +
      65536 * block.getD (4 * j + 2) 0 + 16777216 * block.getD (4 * j + 3) 0

/-- Process one 64-byte block, updating the MD5 state. -/
def md5Block (st : Nat × Nat × Nat × Nat) (block : List Nat) :
    Nat × Nat × Nat × Nat :=
  let m := blockWords block
  let r := (List.range 64).foldl (md5Round m) st
  (w32 (st.1 + r.1), w32 (st.2.1 + r.2.1), w32 (st.2.2.1 + r.2.2.1),
   w32 (st.2.2.2 + r.2.2.2))

/-- MD5 padding: a 0x80 byte, zeros to 56 mod 64, then the bit length as
eight little-endian bytes. -/
def md5Pad (msg : List Nat) : List Nat :=
  let len := msg.length
  let zeros := (119 - len % 64) % 64
  msg ++ [0x80] ++ List.replicate zeros 0 ++
    ((List.range 8).map fun i => ((len * 8) >>> (8 * i)) % 256)

/-- Process `n` successive 64-byte blocks of `l` (structural recursion so the
kernel can evaluate digests). -/
def md5Blocks : Nat → List Nat → Nat × Nat × Nat × Nat → Nat × Nat × Nat × Nat
  | 0, _, st => st
  | n + 1, l, st => md5Blocks n (l.drop 64) (md5Block st (l.take 64))

/-- The four bytes of a 32-bit word, little-endian. -/
def leBytes4 (x : Nat) : List Nat :=
  [x % 256, (x >>> 8) % 256, (x >>> 16) % 256, (x >>> 24) % 256]

/-- The 16-byte MD5 digest of a byte list. -/
def md5 (msg : List Nat) : List Nat :=
  let padded := md5Pad msg
  let st := md5Blocks (padded.length / 64) padded
    (0x67452301, 0xefcdab89, 0x98badcfe, 0x10325476)
  leBytes4 st.1 ++ leBytes4 st.2.1 ++ leBytes4 st.2.2.1 ++ leBytes4 st.2.2.2

/-- UTF-8 encoding of a single code point. -/
def utf8Bytes (c : Nat) : List Nat :=
  if c < 0x80 then [c]
  else if c < 0x800 then [0xC0 + c / 64, 0x80 + c % 64]
  else if c < 0x10000 then
    [0xE0 + c / 4096, 0x80 + (c / 64) % 64, 0x80 + c % 64]
  else
    [0xF0 + c / 262144, 0x80 + (c / 4096) % 64, 0x80 + (c / 64) % 64,
     0x80 + c % 64]

/-- UTF-8 bytes of a string (Python's `str.encode('utf-8')`). -/
def strBytes (s : String) : List Nat :=
  (s.data.map fun ch => utf8Bytes ch.toNat).flatten

/-- Lowercase hex digit. -/
def hexChar (n : Nat) : Char :=
  if n < 10 then Char.ofNat (48 + n) else Char.ofNat (87 + n)

/-- Lowercase hex string of a byte list (Python `bytes.hex()`). -/
def hexString (bytes : List Nat) : String :=
  String.mk ((bytes.map fun b => [hexChar (b / 16), hexChar (b % 16)]).flatten)

/-- RFC 4648 base32 alphabet character. -/
def b32Char (n : Nat) : Char :=
  if n < 26 then Char.ofNat (65 + n) else Char.ofNat (24 + n)

/-- `base64.b32encode(bytes).rstrip('=')`: the unpadded base32 encoding.
The bytes are read as one big-endian number, left-shifted so the bit count
is a multiple of 5, and emitted as 5-bit groups, most significant first. -/
def b32encode (bytes : List Nat) : String :=
  let n := bytes.foldl (fun acc b => acc * 256 + b) 0
  let numChars := (bytes.length * 8 + 4) / 5
  let shifted := n <<< ((5 - (bytes.length * 8) % 5) % 5)
  String.mk ((List.range numChars).map fun i =>
    b32Char ((shifted >>> (5 * (numChars - 1 - i))) % 32))

/-! ## Content-address scheme: `CustomDownloader.process_info`

Embeds `downloader.py` lines 24–42: the unique id string joins extractor and
video id with a hyphen; the hash fields are derived from its MD5 digest. -/

/-- The fields `process_info` adds to the info dict. -/
structure ProcessedInfo where
  b1_b32 : String
  b2_b32 : String
  b1_hex : String
  b2_hex : String
  hash_b32 : String
  hash_hex : String
deriving DecidableEq, Repr

/-- `CustomDownloader.process_info`: hash fields from `(extractor, video_id)`. -/
def process_info (extractor video_id : String) : ProcessedInfo :=
  let unique_id_str := extractor ++ "-" ++ video_id
  let digest := md5 (strBytes unique_id_str)
  let md5_b32 := b32encode digest
  let md5_hex := hexString digest
  { b1_b32 := md5_b32.take 2
    b2_b32 := (md5_b32.drop 2).take 2
    b1_hex := md5_hex.take 2
    b2_hex := (md5_hex.drop 2).take 2
    hash_b32 := md5_b32
    hash_hex := md5_hex }

/-- The directory part of the `outtmpl` used by
`YTDLPDownloader._download_target`:
`'%(b1_b32)s/%(b2_b32)s/%(hash_b32)s/video.%(ext)s'` relative to the output
directory. -/
def downloadRelDir (extractor video_id : String) : String :=
  let p := process_info extractor video_id
  p.b1_b32 ++ "/" ++ p.b2_b32 ++ "/" ++ p.hash_b32

/-- The content identifier as the specification describes it: lowercase hex
MD5 of `extractor ++ "__" ++ source_id`.  Stated from the spec's words for
comparison with the source's `process_info`. -/
def specContentId (extractor source_id : String) : String :=
  hexString (md5 (strBytes (extractor ++ "__" ++ source_id)))

/-- The on-disk object path as the specification describes it:
`h[0:4]/h[4:8]/h` with `h` the spec's content id. -/
def specObjectPath (extractor source_id : String) : String :=
  let h := specContentId extractor source_id
  h.take 4 ++ "/" ++ (h.drop 4).take 4 ++ "/" ++ h

/-! ## Ledger data model (`media.media` and `media.tags` rows)

The ledger is a DuckDB file; we model the `media.media` table as a list of
rows in scan (insertion) order, and `media.tags` as a list of
`(resource_id, tag)` pairs.  Timestamps are abstract `Nat` instants. -/

/-- The `status` column: `pending`, `downloading`, `complete`, `error`. -/
inductive MediaStatus
  | pending
  | downloading
  | complete
  | error
deriving DecidableEq, Repr

/-- One row of `media.media`. -/
structure MediaRow where
  id : String
  title : String
  origin_url : String
  video_url : String
  thumbnail_url : String
  timestamp_created : Nat
  timestamp_installed : Option Nat := none
  timestamp_updated : Option Nat := none
  object_path : String
  status : MediaStatus
deriving DecidableEq, Repr

/-- `UPDATE media.media SET status = 'pending' WHERE status = 'downloading'`
(`MediabinDaemon._restart_downloading_jobs`, line 74). -/
def restart_downloading_jobs (db : List MediaRow) : List MediaRow :=
  db.map fun r =>
    if r.status = MediaStatus.downloading then { r with status := MediaStatus.pending } else r

/-- The ordered actions of `MediabinDaemon.on_spawn` (lines 34–71), named in
source order; used to state that the reset runs exactly once and before the
worker thread starts. -/
inductive SpawnStep
  | makeMediabinDirectory
  | resolveLedgerPath
  | writeLastLedgerPath
  | initDb
  | getOrSetDatadir
  | restartDownloadingJobs
  | initEvents
  | startWorkerThread
  | startWebServer
deriving DecidableEq, Repr

/-- The body of `on_spawn` as its sequence of steps (source order). -/
def onSpawnSteps : List SpawnStep :=
  [SpawnStep.makeMediabinDirectory, SpawnStep.resolveLedgerPath,
   SpawnStep.writeLastLedgerPath, SpawnStep.initDb, SpawnStep.getOrSetDatadir,
   SpawnStep.restartDownloadingJobs, SpawnStep.initEvents,
   SpawnStep.startWorkerThread, SpawnStep.startWebServer]

/-- Modelled from the spec: the fetcher's `VideoInfo` record.  The class
itself (`fetch_info`'s return type) is not in the source tree; the fields
are those `register_new_download` reads from it. -/
structure VideoInfo where
  mb_identifier : Option String
  title : String
  webpage_url : String
  video_url : String
  thumbnail : String
  timestamp : Nat
  mb_path : String
deriving DecidableEq, Repr

/-- DuckDB's `duckdb.ConstraintException`, raised on a duplicate primary
key. -/
inductive ConstraintException
  | primaryKeyViolation
deriving DecidableEq, Repr

/-- The `INSERT INTO media.media (...) VALUES (..., 'pending')` statement of
`register_new_download`: fails with a constraint exception when a row with
the same `id` exists. -/
def insert_media (db : List MediaRow) (row : MediaRow) :
    Except ConstraintException (List MediaRow) :=
  if db.any fun r => r.id == row.id then
    Except.error ConstraintException.primaryKeyViolation
  else
    Except.ok (db ++ [row])

/-- The row `register_new_download` builds from a fetched `VideoInfo` with
identifier `id`. -/
def pendingRowOfInfo (info : VideoInfo) (id : String) : MediaRow :=
  { id := id, title := info.title, origin_url := info.webpage_url,
    video_url := info.video_url, thumbnail_url := info.thumbnail,
    timestamp_created := info.timestamp, object_path := info.mb_path,
    status := MediaStatus.pending }

/-- Result of one `register_new_download` call: the ledger afterwards, the
messages printed, and whether `new_in_queue` was set.  The function returns
normally in every case: the constraint exception is caught inside. -/
structure RegisterResult where
  db : List MediaRow
  messages : List String
  eventSet : Bool
deriving DecidableEq, Repr

/-- `MediabinDaemon.register_new_download` (lines 107–136).  `fetchInfo`
abstracts `YTDLPDownloader.fetch_info` (not in the source tree).  A failed
metadata probe returns early (no row, event not set); a duplicate insert's
`ConstraintException` is caught and reported as an informational print. -/
def register_new_download (fetchInfo : String → Option VideoInfo)
    (db : List MediaRow) (url : String) : RegisterResult :=
  match fetchInfo url with
  | none => ⟨db, ["Failed to get url " ++ url], false⟩
  | some info =>
    match info.mb_identifier with
    | none => ⟨db, ["Failed to get url " ++ url], false⟩
    | some id =>
      match insert_media db (pendingRowOfInfo info id) with
      | Except.error _ =>
        ⟨db, [url ++ " is already downloaded or is currently in the queue"], true⟩
      | Except.ok db' => ⟨db', [], true⟩

/-- `n` repeated `register_new_download` calls for the same URL. -/
def registerIter (fetchInfo : String → Option VideoInfo) (url : String) :
    Nat → List MediaRow → List MediaRow
  | 0, db => db
  | n + 1, db => registerIter fetchInfo url n (register_new_download fetchInfo db url).db

/-- Number of ledger rows carrying a given id. -/
def countId (db : List MediaRow) (id : String) : Nat :=
  (db.filter fun r => r.id == id).length

/-! ## Listing completed media: `MediabinDaemon.list_media` (lines 164–188)

The handler builds
`SELECT m.title FROM media.media m [JOIN media.tags t ON m.id = t.resource_id]
WHERE m.status = 'complete' [AND t.tag IN (…)] [AND m.title ILIKE ?]`
with no `ORDER BY`.  We model the result list in scan order: outer loop over
`media.media`, inner loop over `media.tags` for the join. -/

/-- SQL `LIKE`/`ILIKE` matching of a pattern against a string, both taken
case-insensitively: `%` matches any run of characters, `_` exactly one,
anything else itself. -/
def likeMatch : List Char → List Char → Bool
  | [], s => s.isEmpty
  | '%' :: ps, s => (s.tails).any fun t => likeMatch ps t
  | '_' :: ps, s =>
    match s with
    | [] => false
    | _ :: s' => likeMatch ps s'
  | p :: ps, s =>
    match s with
    | [] => false
    | c :: s' => (p.toLower == c.toLower) && likeMatch ps s'

/-- The title predicate `list_media` installs: for a non-empty `title_like`
with words `w1 … wk` (split on whitespace), the row must satisfy
`m.title ILIKE '%w1%…%wk%'`. -/
def titleFilter (title_like : Option String) (title : String) : Bool :=
  match title_like with
  | none => true
  | some tl =>
    if tl = "" then true
    else
      let ws := (tl.split fun c => c.isWhitespace).filter fun w => w ≠ ""
      if ws = [] then true
      else likeMatch ("%" ++ String.intercalate "%" ws ++ "%").data title.data

/-- `MediabinDaemon.list_media`: the titles produced by the built query, in
scan order.  With tags the join yields one output row per matching
`(media row, tag row)` pair; the tag condition is `t.tag IN (tags)`. -/
def list_media (db : List MediaRow) (tagRows : List (String × String))
    (title_like : Option String) (tags : List String) : List String :=
  if tags = [] then
    ((db.filter fun m => m.status == MediaStatus.complete &&
        titleFilter title_like m.title).map fun m => m.title)
  else
    db.flatMap fun m =>
      if m.status == MediaStatus.complete && titleFilter title_like m.title then
        ((tagRows.filter fun t => t.1 == m.id && tags.contains t.2).map
          fun _ => m.title)
      else []

/-- Case-insensitive substring test (the spec's reading of the title
filter). -/
def containsCI (hay needle : String) : Bool :=
  (hay.toLower.data.tails).any fun t => needle.toLower.data.isPrefixOf t

/-- The spec's listing order: `timestamp_updated DESC,
timestamp_installed DESC, title ASC` (absent timestamps ordered last). -/
def specListLe (a b : MediaRow) : Bool :=
  let tu := fun r : MediaRow => (r.timestamp_updated).getD 0
  let ti := fun r : MediaRow => (r.timestamp_installed).getD 0
  if tu a ≠ tu b then tu b < tu a
  else if ti a ≠ ti b then ti b < ti a
  else a.title ≤ b.title

/-- `list_complete` as the specification words it: rows in status
`complete`, every whitespace-split word of `title_like` a case-insensitive
substring of the title, the tag filter an intersection (every given tag
present), ordered by `timestamp_updated DESC, timestamp_installed DESC,
title ASC`.  Stated from the spec for comparison with the source's
`list_media`. -/
def list_complete_spec (db : List MediaRow) (tagRows : List (String × String))
    (title_like : Option String) (tags : List String) : List String :=
  let keep : MediaRow → Bool := fun m =>
    m.status == MediaStatus.complete &&
    (match title_like with
     | none => true
     | some tl =>
       ((tl.split fun c => c.isWhitespace).filter fun w => w ≠ "").all
         fun w => containsCI m.title w) &&
    (tags.all fun tg => tagRows.contains (m.id, tg))
  (List.insertionSort (fun a b => specListLe a b = true) (db.filter keep)).map
    fun m => m.title

/-! ## Download scheduler: `_worker_thread_proc` and `_status_callback`

Both the worker's promotion step (lines 229–246) and the status callback's
map updates (lines 195–210) run while holding `_lock_current_downloads`, so
each is one atomic transition of the shared state.  The state tracks the
ledger and the key set of `current_downloads`; `current_statuses` holds no
job handles and cannot affect the bound. -/

/-- `self.max_concurrent_downloads = 3` (line 58). -/
def max_concurrent_downloads : Nat := 3

/-- Shared scheduler state: the ledger and the ids in `current_downloads`. -/
structure SchedState where
  ledger : List MediaRow
  downloads : Finset String

/-- `UPDATE media.media SET status = s WHERE id = ?`. -/
def setStatus (db : List MediaRow) (id : String) (st : MediaStatus) :
    List MediaRow :=
  db.map fun r => if r.id = id then { r with status := st } else r

/-- `UPDATE … SET status='complete', timestamp_installed=?,
timestamp_updated=? WHERE id = ?` (line 208). -/
def markComplete (db : List MediaRow) (id : String) (now : Nat) :
    List MediaRow :=
  db.map fun r =>
    if r.id = id then
      { r with status := MediaStatus.complete, timestamp_installed := some now,
               timestamp_updated := some now }
    else r

/-- `SELECT id, origin_url FROM media.media WHERE status = 'pending'`,
`fetchone()`: the first pending row in scan order. -/
def nextPending (db : List MediaRow) : Option (String × String) :=
  (db.find? fun r => r.status == MediaStatus.pending).map fun r =>
    (r.id, r.origin_url)

/-- One atomic transition of the scheduler state, each step taken with
`_lock_current_downloads` held, as in the source:
* `promote` — the worker-loop body past the capacity check: requires
  `|current_downloads| < max_concurrent_downloads` and a pending row; marks
  it `downloading` and inserts the new job's id into `current_downloads`;
* `callbackProgress` — `StatusPending`/`StatusDownloading` in
  `_status_callback`: only `current_statuses` changes;
* `callbackError` / `callbackFinished` — terminal statuses: write the
  terminal ledger status, then delete the id from `current_downloads`;
* `enqueue` — a `register_new_download` handler call mutating the ledger
  only. -/
inductive SchedStep : SchedState → SchedState → Prop
  | promote (s : SchedState) (id url : String)
      (hroom : s.downloads.card < max_concurrent_downloads)
      (hpending : nextPending s.ledger = some (id, url)) :
      SchedStep s ⟨setStatus s.ledger id MediaStatus.downloading,
                   insert id s.downloads⟩
  | callbackProgress (s : SchedState) : SchedStep s s
  | callbackError (s : SchedState) (id : String) (hmem : id ∈ s.downloads) :
      SchedStep s ⟨setStatus s.ledger id MediaStatus.error, s.downloads.erase id⟩
  | callbackFinished (s : SchedState) (id : String) (now : Nat)
      (hmem : id ∈ s.downloads) :
      SchedStep s ⟨markComplete s.ledger id now, s.downloads.erase id⟩
  | enqueue (s : SchedState) (fetchInfo : String → Option VideoInfo)
      (url : String) :
      SchedStep s ⟨(register_new_download fetchInfo s.ledger url).db, s.downloads⟩

/-- States reachable from daemon startup: `current_downloads` starts empty
(line 59), the ledger is arbitrary. -/
inductive SchedReachable : SchedState → Prop
  | init (db : List MediaRow) : SchedReachable ⟨db, ∅⟩
  | step {s s' : SchedState} : SchedReachable s → SchedStep s s' →
      SchedReachable s'

/-! ## Output router: `TaggedStreamProxy` and `Daemon.handle_client`

Frames, the per-thread connection map, and the per-call dispatch sequence of
`handle_client` lines 303–320: tag the connection, run the handler (its
writes go through the proxy), untag in `finally`, then send the result
frame (the caught exception object when the handler raised). -/

/-- A wire frame sent to a client (`StdoutMessage`, `StderrMessage`, or the
final call result / exception object). -/
inductive Frame
  | stdoutChunk (text : String)
  | stderrChunk (text : String)
  | result (value : String)
  | errorResult (message : String)
deriving DecidableEq, Repr

/-- The state of `TaggedStreamProxy`: the `connections` and `map_isatty`
dicts keyed by thread id (shared by the stdout and stderr proxies). -/
structure ProxyState where
  connections : List (Nat × Nat)
  map_isatty : List (Nat × Bool)
deriving DecidableEq, Repr

/-- Where one `write` call lands: a frame sent to a connection, or text
appended to the daemon log file.  Each constructor is one immediately
flushed physical write (`send_pickle` respectively `f.write; f.flush`). -/
inductive WriteDest
  | frame (conn : Nat) (f : Frame)
  | log (text : String)
deriving DecidableEq, Repr

/-- `TaggedStreamProxy.write` (lines 37–49): look up the calling thread in
`connections`; send a tagged chunk frame if present, append to the log file
otherwise.  `isErr` selects the `stream_cls` (`StderrMessage` for the
stderr proxy). -/
def proxy_write (st : ProxyState) (tid : Nat) (isErr : Bool) (s : String) :
    WriteDest :=
  match st.connections.lookup tid with
  | some conn =>
    WriteDest.frame conn (if isErr then Frame.stderrChunk s else Frame.stdoutChunk s)
  | none => WriteDest.log s

/-- `TaggedStreamProxy.tag_connection`: `connections[tid] = conn`,
`map_isatty[tid] = isatty` (dict assignment: the new binding shadows). -/
def tag_connection (st : ProxyState) (tid conn : Nat) (isatty : Bool) :
    ProxyState :=
  ⟨(tid, conn) :: st.connections, (tid, isatty) :: st.map_isatty⟩

/-- `TaggedStreamProxy.remove_connection`: `connections.pop(tid, None)`,
`map_isatty.pop(tid, None)`. -/
def remove_connection (st : ProxyState) (tid : Nat) : ProxyState :=
  ⟨st.connections.filter fun p => p.1 ≠ tid,
   st.map_isatty.filter fun p => p.1 ≠ tid⟩

/-- A handler execution: the texts it writes, in order (`isErr` marks
stderr writes), and its outcome — `Except.error` when it raises. -/
structure HandlerRun where
  writes : List (Bool × String)
  outcome : Except String String

/-- The final frame `handle_client` sends for a call: the result value, or
the caught exception (`result = e`). -/
def finalFrame (outcome : Except String String) : Frame :=
  match outcome with
  | Except.ok v => Frame.result v
  | Except.error m => Frame.errorResult m

/-- One call handled by `Daemon.handle_client` (lines 303–320) on thread
`tid` for connection `conn`: tag, run the handler (each write dispatched by
the proxy with the tagged map), untag in `finally`, send the result frame.
Returns the physical writes in order and the proxy state afterwards. -/
def handle_call (st0 : ProxyState) (tid conn : Nat) (isattyOut isattyErr : Bool)
    (run : HandlerRun) : List WriteDest × ProxyState :=
  let st1 := tag_connection (tag_connection st0 tid conn isattyOut) tid conn isattyErr
  let sends := run.writes.map fun w => proxy_write st1 tid w.1 w.2
  let st2 := remove_connection (remove_connection st1 tid) tid
  (sends ++ [WriteDest.frame conn (finalFrame run.outcome)], st2)

/-- The frames a sequence of physical writes puts on connection `conn`, in
order. -/
def framesOn (conn : Nat) (l : List WriteDest) : List Frame :=
  l.filterMap fun w =>
    match w with
    | WriteDest.frame c f => if c = conn then some f else none
    | WriteDest.log _ => none

/-! ## Fetcher cancellation

`MediabinDaemon.on_stop` (lines 212–221) calls `job.cancel_download()` on
every job in `current_downloads`.  The fetcher's cancellation itself
(`cancel_download`, `register_status_callback`) is not in the source tree;
its event discipline is modelled from the spec below. -/

/-- A status event delivered through the registered callback. -/
inductive JobEvent
  | statusPending
  | statusDownloading (progress : Nat)
  | statusFinished
  | statusError
deriving DecidableEq, Repr

/-- One observable action of a fetcher job: an event emission through its
callback, or a cancellation request. -/
inductive FetcherAction
  | emit (e : JobEvent)
  | cancelRequest
deriving DecidableEq, Repr

/-- Modelled from the spec: the fetcher's cancellation discipline
(`cancel_download` is absent from the source tree).  "Cancellation
(`cancel()`) causes the fetcher to stop and emit no further events; the
adapter MUST NOT emit a terminal event after cancel is requested" — a
cooperative flag: an emission is admissible only while the flag is
unset. -/
def fetcherTraceOkFrom (cancelled : Bool) : List FetcherAction → Bool
  | [] => true
  | FetcherAction.cancelRequest :: rest => fetcherTraceOkFrom true rest
  | FetcherAction.emit _ :: rest => !cancelled && fetcherTraceOkFrom cancelled rest

/-- A job's action trace admissible by the modelled fetcher, starting with
cancellation not yet requested. -/
def fetcherTraceOk (tr : List FetcherAction) : Bool :=
  fetcherTraceOkFrom false tr

/-- The cancellation `on_stop` requests for one job in `current_downloads`
during shutdown, appended to that job's action trace. -/
def onStopCancel (tr : List FetcherAction) : List FetcherAction :=
  tr ++ [FetcherAction.cancelRequest]

/-! ## Schema migrator: `migration/migrate.py`

The bookkeeping (`migrate_up_to`, `migrate_down_to`, `apply_migration`,
`get_current_version`) is embedded from the source; the numbered SQL script
files themselves are not in the source tree, so a script's effect on the
schema is an abstract transformation `up v` / `down v` on a schema type
`σ`.  Applied versions (`_schema_migrations`) are a finite set. -/

section Migration

variable {σ : Type}

/-- `get_current_version`: `SELECT max(version) FROM _schema_migrations`,
`0` when empty. -/
def get_current_version (applied : Finset Nat) : Nat := applied.sup id

/-- `apply_migration … "up"`: run the up script and record the version. -/
def apply_migration_up (up : Nat → σ → σ) (v : Nat) (st : σ × Finset Nat) :
    σ × Finset Nat :=
  (up v st.1, insert v st.2)

/-- `apply_migration … "down"`: run the down script and delete the
version's record. -/
def apply_migration_down (down : Nat → σ → σ) (v : Nat) (st : σ × Finset Nat) :
    σ × Finset Nat :=
  (down v st.1, st.2.erase v)

/-- `sorted(migrations.keys())`. -/
def sortAsc (l : List Nat) : List Nat :=
  List.insertionSort (· ≤ ·) l

/-- `sorted(migrations.keys(), reverse=True)`. -/
def sortDesc (l : List Nat) : List Nat :=
  List.insertionSort (· ≥ ·) l

/-- `migrate_up_to` (lines 83–89): apply every available version in
`(current, target]` in ascending order. -/
def migrate_up_to (up : Nat → σ → σ) (migs : List Nat) (cur target : Nat)
    (st : σ × Finset Nat) : σ × Finset Nat :=
  ((sortAsc migs).filter fun v => decide (cur < v) && decide (v ≤ target)).foldl
    (fun st v => apply_migration_up up v st) st

/-- `migrate_down_to` (lines 91–97): apply every available version in
`(target, current]` in descending order. -/
def migrate_down_to (down : Nat → σ → σ) (migs : List Nat) (cur target : Nat)
    (st : σ × Finset Nat) : σ × Finset Nat :=
  ((sortDesc migs).filter fun v => decide (target < v) && decide (v ≤ cur)).foldl
    (fun st v => apply_migration_down down v st) st

/-- `migrate_to_version` (lines 99–131), the migration dispatch: read the
current version, go up or down towards the target. -/
def migrate_to_version (up down : Nat → σ → σ) (migs : List Nat)
    (target : Nat) (st : σ × Finset Nat) : σ × Finset Nat :=
  let cur := get_current_version st.2
  if cur < target then migrate_up_to up migs cur target st
  else if target < cur then migrate_down_to down migs cur target st
  else st

end Migration

/-! ## `Daemon.stop` (lines 259–284) and `is_process_running`

`stop` reads the pid file, sends SIGTERM, polls up to the timeout, and —
in a `finally` block — removes the pid file and prints the clean-stop
message on every path except the early `pid is None` return. -/

/-- The messages `stop` prints, named. -/
inductive StopMsg
  | notRunningNoPidFile
  | sentSigterm (pid : Nat)
  | didNotStopWithinTimeout
  | notRunningNoProcess
  | stoppedCleanly
deriving DecidableEq, Repr

/-- The environment `stop` observes: the pid file contents (if the file
exists), whether `os.kill` finds the process gone (`ProcessLookupError`),
and whether the poll loop sees the process exit before the deadline. -/
structure StopEnv where
  pidFile : Option Nat
  processGoneAtKill : Bool
  exitsWithinTimeout : Bool
deriving DecidableEq, Repr

/-- The observable outcome of `stop`: the pid file afterwards and the
messages printed, in order. -/
structure StopResult where
  pidFileAfter : Option Nat
  messages : List StopMsg
deriving DecidableEq, Repr

/-- `Daemon.stop`: early return when no pid file; otherwise SIGTERM, poll,
and the `finally` block removes the pid file and prints the clean-stop
message on all three paths — process exited, `ProcessLookupError`, and
timeout (the `return` after the poll loop's `else` still runs the
`finally`). -/
def daemon_stop (env : StopEnv) : StopResult :=
  match env.pidFile with
  | none => ⟨none, [StopMsg.notRunningNoPidFile]⟩
  | some pid =>
    if env.processGoneAtKill then
      ⟨none, [StopMsg.notRunningNoProcess, StopMsg.stoppedCleanly]⟩
    else if env.exitsWithinTimeout then
      ⟨none, [StopMsg.sentSigterm pid, StopMsg.stoppedCleanly]⟩
    else
      ⟨none, [StopMsg.sentSigterm pid, StopMsg.didNotStopWithinTimeout,
              StopMsg.stoppedCleanly]⟩

/-- `Daemon.is_process_running`: read the pid file and probe the pid with a
zero signal; `False` when the pid file is absent.  `alive` abstracts the
zero-signal probe. -/
def is_process_running (pidFile : Option Nat) (alive : Nat → Bool) : Bool :=
  match pidFile with
  | none => false
  | some pid => alive pid

/-! ## Concrete instances used by witnesses and counterexamples -/

/-- A concrete two-row ledger: one `downloading` row, one `complete` row. -/
def exLedger : List MediaRow :=
  [{ id := "a", title := "A", origin_url := "u", video_url := "v",
     thumbnail_url := "t", timestamp_created := 0, object_path := "p",
     status := MediaStatus.downloading },
   { id := "b", title := "B", origin_url := "u", video_url := "v",
     thumbnail_url := "t", timestamp_created := 0, object_path := "p",
     status := MediaStatus.complete }]

/-- The first row of `exLedger` after the reset: status turned `pending`. -/
def exLedgerResetRow : MediaRow :=
  { id := "a", title := "A", origin_url := "u", video_url := "v",
    thumbnail_url := "t", timestamp_created := 0, object_path := "p",
    status := MediaStatus.pending }

/-- A one-row ledger whose row is `pending` (promotable). -/
def exLedgerPending : List MediaRow :=
  [{ id := "a", title := "A", origin_url := "u", video_url := "v",
     thumbnail_url := "t", timestamp_created := 0, object_path := "p",
     status := MediaStatus.pending }]

/-- A completed row tagged `t1` only (for the C7 counterexample). -/
def exRowT1 : MediaRow :=
  { id := "m1", title := "A", origin_url := "u", video_url := "v",
    thumbnail_url := "t", timestamp_created := 0,
    timestamp_installed := some 1, timestamp_updated := some 1,
    object_path := "p", status := MediaStatus.complete }

/-- Two completed rows whose scan order is the opposite of the spec's
listing order (`timestamp_updated DESC`): the older row comes first. -/
def exRowsUnordered : List MediaRow :=
  [{ id := "m1", title := "B", origin_url := "u", video_url := "v",
     thumbnail_url := "t", timestamp_created := 0,
     timestamp_installed := some 1, timestamp_updated := some 1,
     object_path := "p", status := MediaStatus.complete },
   { id := "m2", title := "A", origin_url := "u", video_url := "v",
     thumbnail_url := "t", timestamp_created := 0,
     timestamp_installed := some 9, timestamp_updated := some 9,
     object_path := "p", status := MediaStatus.complete }]

/-! ## Theorems -/

/-! RFC 1321 test vectors pin the MD5 embedding. -/

example : hexString (md5 (strBytes "")) = "d41d8cd98f00b204e9800998ecf8427e" := by
  decide
example : hexString (md5 (strBytes "abc")) = "900150983cd24fb0d6963f7d28e17f72" := by
  decide

/-- C10: whenever a pid file exists, `Daemon.stop` removes it before
returning, also when the daemon has not exited within the timeout deadline:
the failure is reported, but the `finally` block still deletes the pid file
and prints the clean-stop message, so `is_process_running` is false
immediately afterwards even when the daemon process is still alive. -/
theorem C10_stop_removes_pid_file (env : StopEnv) (pid : Nat)
    (h : env.pidFile = some pid) :
    (daemon_stop env).pidFileAfter = none ∧
    StopMsg.stoppedCleanly ∈ (daemon_stop env).messages ∧
    (env.processGoneAtKill = false → env.exitsWithinTimeout = false →
      StopMsg.didNotStopWithinTimeout ∈ (daemon_stop env).messages) ∧
    ∀ alive : Nat → Bool,
      is_process_running (daemon_stop env).pidFileAfter alive = false := by
  rcases env with ⟨pf, gone, exits⟩
  simp only at h
  subst h
  cases gone <;> cases exits <;>
    simp [daemon_stop, is_process_running]

/-- Witness for C10 at the timeout path: the process never exits within the
deadline (and stays alive), yet the pid file is gone, the clean-stop
message printed, and `is_process_running` is false. -/
theorem C10_stop_removes_pid_file_witness :
    (daemon_stop ⟨some 42, false, false⟩).pidFileAfter = none ∧
    StopMsg.stoppedCleanly ∈ (daemon_stop ⟨some 42, false, false⟩).messages ∧
    StopMsg.didNotStopWithinTimeout ∈ (daemon_stop ⟨some 42, false, false⟩).messages ∧
    is_process_running (daemon_stop ⟨some 42, false, false⟩).pidFileAfter
      (fun _ => true) = false := by
  obtain ⟨h1, h2, h3, h4⟩ := C10_stop_removes_pid_file ⟨some 42, false, false⟩ 42 rfl
  exact ⟨h1, h2, h3 rfl rfl, h4 _⟩

/-- C4: `on_spawn` runs the reset exactly once, before the worker thread
starts; the reset leaves no row in status `downloading`, turns every
previously `downloading` row into the same row with status `pending`, and
leaves rows in any other status unchanged (stated pointwise by index). -/
theorem C4_reset_downloading_at_startup :
    (onSpawnSteps.count SpawnStep.restartDownloadingJobs = 1 ∧
     onSpawnSteps.indexOf SpawnStep.restartDownloadingJobs <
       onSpawnSteps.indexOf SpawnStep.startWorkerThread) ∧
    ∀ db : List MediaRow,
      (restart_downloading_jobs db).length = db.length ∧
      (∀ r ∈ restart_downloading_jobs db, r.status ≠ MediaStatus.downloading) ∧
      ∀ i : Nat,
        (restart_downloading_jobs db)[i]? =
          (db[i]?).map fun r =>
            if r.status = MediaStatus.downloading
            then { r with status := MediaStatus.pending } else r := by
  refine ⟨⟨by decide, by decide⟩, fun db => ⟨?_, ?_, ?_⟩⟩
  · simp [restart_downloading_jobs]
  · intro r hr
    simp only [restart_downloading_jobs, List.mem_map] at hr
    obtain ⟨r', _, rfl⟩ := hr
    by_cases h : r'.status = MediaStatus.downloading <;> simp [h]
  · intro i
    simp [restart_downloading_jobs, List.getElem?_map]

/-- Witness for C4 on `exLedger`: the reset keeps both rows, the formerly
`downloading` row is the `pending` row at index 0, and that row's status is
not `downloading`. -/
theorem C4_reset_downloading_at_startup_witness :
    (restart_downloading_jobs exLedger).length = 2 ∧
    exLedgerResetRow.status ≠ MediaStatus.downloading ∧
    (restart_downloading_jobs exLedger)[0]? = some exLedgerResetRow := by
  obtain ⟨-, hdb⟩ := C4_reset_downloading_at_startup
  obtain ⟨h1, h2, h3⟩ := hdb exLedger
  refine ⟨h1, h2 exLedgerResetRow (by decide), ?_⟩
  rw [h3 0]
  decide

/-- C1: in every reachable scheduler state, under any interleaving of
worker-loop iterations, status-callback invocations and enqueues — each
atomic because both the worker's promotion body and the callback hold
`_lock_current_downloads` — the number of in-flight jobs
`|current_downloads|` never exceeds `max_concurrent_downloads` (3): the
worker only promotes and inserts when the count is below the bound, and the
callback only removes entries. -/
theorem C1_bounded_concurrency (s : SchedState) (h : SchedReachable s) :
    s.downloads.card ≤ max_concurrent_downloads := by
  induction h with
  | init db => simp
  | step _ hs ih =>
    cases hs with
    | promote id url hroom hpending =>
      exact le_trans (Finset.card_insert_le _ _) hroom
    | callbackProgress => exact ih
    | callbackError id hmem =>
      exact le_trans Finset.card_erase_le ih
    | callbackFinished id now hmem =>
      exact le_trans Finset.card_erase_le ih
    | enqueue fetchInfo url => exact ih

/-- An admissible trace stays admissible under the flag, and once the flag
is set no emission is admissible. -/
lemma no_emit_when_cancelled {l : List FetcherAction}
    (h : fetcherTraceOkFrom true l = true) :
    ∀ e : JobEvent, FetcherAction.emit e ∉ l := by
  induction l with
  | nil => intro e he; cases he
  | cons a rest ih =>
    intro e he
    cases a with
    | cancelRequest =>
      rcases List.mem_cons.mp he with h' | h'
      · cases h'
      · exact ih (by simpa [fetcherTraceOkFrom] using h) e h'
    | emit e' => simp [fetcherTraceOkFrom] at h

/-- Admissibility of a trace through a cancellation request forces the flag
for its tail. -/
lemma traceOk_after_cancel {c : Bool} :
    ∀ pre post : List FetcherAction,
      fetcherTraceOkFrom c (pre ++ FetcherAction.cancelRequest :: post) = true →
      fetcherTraceOkFrom true post = true := by
  intro pre
  induction pre generalizing c with
  | nil => intro post h; simpa [fetcherTraceOkFrom] using h
  | cons a rest ih =>
    intro post h
    cases a with
    | cancelRequest => exact ih post (by simpa [fetcherTraceOkFrom] using h)
    | emit e =>
      simp only [List.cons_append, fetcherTraceOkFrom, Bool.and_eq_true] at h
      exact ih post h.2

/-- C8 (spec-modelled): once cancellation is requested on a download job —
as `on_stop` does for every job in `current_downloads` during shutdown —
the fetcher emits no further status events through that job's registered
callback; in particular no terminal `Finished`/`Error` event follows the
cancel request. -/
theorem C8_no_events_after_cancel (pre post : List FetcherAction)
    (h : fetcherTraceOk (onStopCancel pre ++ post) = true) :
    ∀ e : JobEvent, FetcherAction.emit e ∉ post := by
  apply no_emit_when_cancelled
  apply traceOk_after_cancel pre post
  simpa [onStopCancel] using h

/-- Witness for C8: a job that reported progress, was cancelled by
`on_stop`, then received a second (idempotent) cancel request: no terminal
`Finished` event occurs after the first cancel. -/
theorem C8_no_events_after_cancel_witness :
    FetcherAction.emit JobEvent.statusFinished ∉ [FetcherAction.cancelRequest] :=
  C8_no_events_after_cancel
    [FetcherAction.emit JobEvent.statusPending,
     FetcherAction.emit (JobEvent.statusDownloading 50)]
    [FetcherAction.cancelRequest] (by decide) JobEvent.statusFinished

/-- Witness for C1: a state reached by enqueueing one row and promoting it
(one job in flight) satisfies the bound. -/
theorem C1_bounded_concurrency_witness :
    (SchedState.mk (setStatus exLedgerPending "a" MediaStatus.downloading)
        (insert "a" ∅)).downloads.card ≤ max_concurrent_downloads :=
  C1_bounded_concurrency _
    (SchedReachable.step (SchedReachable.init exLedgerPending)
      (SchedStep.promote ⟨exLedgerPending, ∅⟩ "a" "u"
        (by simp [max_concurrent_downloads]) (by decide)))

/-- A freshly tagged thread resolves to its connection. -/
lemma lookup_tag (st0 : ProxyState) (tid conn : Nat) (io ie : Bool) :
    ((tag_connection (tag_connection st0 tid conn io) tid conn ie).connections.lookup
      tid) = some conn := by
  simp [tag_connection, List.lookup]

/-- Frames addressed to `conn` pass `framesOn` unchanged. -/
lemma framesOn_map_frame {α : Type} (conn : Nat) (g : α → Frame) (l : List α) :
    framesOn conn (l.map fun a => WriteDest.frame conn (g a)) = l.map g := by
  induction l with
  | nil => rfl
  | cons a l ih =>
    simpa [framesOn, List.filterMap_cons] using ih

/-- C5: for every call handled on a connection, every chunk frame produced
by the handler's writes is sent strictly before the single terminating
result frame: a handler that writes `n` chunks produces exactly those `n`
chunk frames in order, followed by the result (or caught-exception) frame,
which is the last frame of the call on the connection. -/
theorem C5_chunks_before_result (st0 : ProxyState) (tid conn : Nat)
    (io ie : Bool) (run : HandlerRun) :
    framesOn conn (handle_call st0 tid conn io ie run).1 =
      (run.writes.map fun w =>
        if w.1 then Frame.stderrChunk w.2 else Frame.stdoutChunk w.2) ++
        [finalFrame run.outcome] ∧
    (framesOn conn (handle_call st0 tid conn io ie run).1).getLast? =
      some (finalFrame run.outcome) := by
  have hfun : (fun w : Bool × String =>
      proxy_write (tag_connection (tag_connection st0 tid conn io) tid conn ie)
        tid w.1 w.2) =
      fun w : Bool × String => WriteDest.frame conn
        (if w.1 then Frame.stderrChunk w.2 else Frame.stdoutChunk w.2) :=
    funext fun w => by simp [proxy_write, lookup_tag]
  have hmain : framesOn conn (handle_call st0 tid conn io ie run).1 =
      (run.writes.map fun w =>
        if w.1 then Frame.stderrChunk w.2 else Frame.stdoutChunk w.2) ++
        [finalFrame run.outcome] := by
    show framesOn conn
      ((run.writes.map fun w =>
          proxy_write (tag_connection (tag_connection st0 tid conn io) tid conn ie)
            tid w.1 w.2) ++
        [WriteDest.frame conn (finalFrame run.outcome)]) = _
    rw [hfun]
    simp only [framesOn, List.filterMap_append]
    rw [show List.filterMap _ (run.writes.map fun w : Bool × String =>
          WriteDest.frame conn
            (if w.1 then Frame.stderrChunk w.2 else Frame.stdoutChunk w.2)) =
        framesOn conn (run.writes.map fun w : Bool × String =>
          WriteDest.frame conn
            (if w.1 then Frame.stderrChunk w.2 else Frame.stdoutChunk w.2)) from rfl]
    rw [framesOn_map_frame]
    simp [framesOn]
  exact ⟨hmain, by rw [hmain]; exact List.getLast?_concat _⟩

/-- No entry keyed `tid` survives the filter `remove_connection` applies. -/
lemma lookup_filter_ne {β : Type} (l : List (Nat × β)) (tid : Nat) :
    (l.filter fun p => p.1 ≠ tid).lookup tid = none := by
  induction l with
  | nil => rfl
  | cons p rest ih =>
    by_cases h : p.1 = tid
    · simpa [List.filter_cons, h] using ih
    · have hne : (tid == p.1) = false := by
        simp only [beq_eq_false_iff_ne]
        exact fun hh => h hh.symm
      simp only [List.filter_cons, decide_not, h, decide_False, Bool.not_false,
        if_true]
      simpa [List.lookup, hne] using ih

/-- C6: while a thread executes a handler (its id is tagged to the client
connection) every logical stdout/stderr write is forwarded as the matching
chunk frame on that connection; a write from a thread with no tagged
connection is appended to the daemon log file; and the thread-to-connection
association (and the isatty record) is cleared when the handler exits,
whether it returned or raised — `handle_call` covers both outcomes. -/
theorem C6_output_router_routing :
    (∀ (st : ProxyState) (tid conn : Nat) (isErr : Bool) (s : String),
        st.connections.lookup tid = some conn →
        proxy_write st tid isErr s =
          WriteDest.frame conn
            (if isErr then Frame.stderrChunk s else Frame.stdoutChunk s)) ∧
    (∀ (st : ProxyState) (tid : Nat) (isErr : Bool) (s : String),
        st.connections.lookup tid = none →
        proxy_write st tid isErr s = WriteDest.log s) ∧
    (∀ (st0 : ProxyState) (tid conn : Nat) (io ie : Bool) (run : HandlerRun),
        (handle_call st0 tid conn io ie run).2.connections.lookup tid = none ∧
        (handle_call st0 tid conn io ie run).2.map_isatty.lookup tid = none) := by
  refine ⟨?_, ?_, ?_⟩
  · intro st tid conn isErr s h
    simp [proxy_write, h]
  · intro st tid isErr s h
    simp [proxy_write, h]
  · intro st0 tid conn io ie run
    exact ⟨lookup_filter_ne _ _, lookup_filter_ne _ _⟩

/-- Witness for C6 at a concrete proxy state: thread 1 is tagged to
connection 7 and its write becomes a stdout chunk frame; untagged thread 2's
write goes to the log; after a call that raised, thread 1 is no longer
tagged. -/
theorem C6_output_router_routing_witness :
    proxy_write ⟨[(1, 7)], [(1, true)]⟩ 1 false "hello" =
      WriteDest.frame 7 (Frame.stdoutChunk "hello") ∧
    proxy_write ⟨[(1, 7)], [(1, true)]⟩ 2 false "bg" = WriteDest.log "bg" ∧
    (handle_call ⟨[], []⟩ 1 7 false false
        ⟨[(false, "x")], Except.error "boom"⟩).2.connections.lookup 1 = none := by
  obtain ⟨h1, h2, h3⟩ := C6_output_router_routing
  refine ⟨?_, h2 ⟨[(1, 7)], [(1, true)]⟩ 2 false "bg" (by decide), ?_⟩
  · simpa using h1 ⟨[(1, 7)], [(1, true)]⟩ 1 7 false "hello" (by decide)
  · exact (h3 ⟨[], []⟩ 1 7 false false ⟨[(false, "x")], Except.error "boom"⟩).1

/-- No row carries `id` exactly when the duplicate check fails. -/
lemma any_id_eq_of_countId (db : List MediaRow) (id : String) :
    (db.any fun r => r.id == id) = false ↔ countId db id = 0 := by
  simp only [countId, List.length_eq_zero, List.filter_eq_nil_iff,
    List.any_eq_false]

/-- The insert succeeds exactly on a fresh id and appends the row. -/
lemma insert_media_fresh (db : List MediaRow) (info : VideoInfo) (id : String)
    (h0 : countId db id = 0) :
    insert_media db (pendingRowOfInfo info id) =
      Except.ok (db ++ [pendingRowOfInfo info id]) := by
  have hany : (db.any fun r => r.id == (pendingRowOfInfo info id).id) = false :=
    (any_id_eq_of_countId db id).mpr h0
  rw [insert_media, hany]
  rfl

/-- The insert of a row whose id is present raises the constraint
exception. -/
lemma insert_media_dup (db : List MediaRow) (info : VideoInfo) (id : String)
    (h1 : countId db id ≠ 0) :
    insert_media db (pendingRowOfInfo info id) =
      Except.error ConstraintException.primaryKeyViolation := by
  have hany : (db.any fun r => r.id == (pendingRowOfInfo info id).id) = true := by
    cases hval : db.any fun r => r.id == (pendingRowOfInfo info id).id
    · exact absurd ((any_id_eq_of_countId db id).mp hval) h1
    · rfl
  rw [insert_media, hany]
  rfl

/-- A successful insert appends the one new row. -/
lemma register_new_download_fresh (fetchInfo : String → Option VideoInfo)
    (url : String) (info : VideoInfo) (id : String) (db : List MediaRow)
    (hfetch : fetchInfo url = some info) (hid : info.mb_identifier = some id)
    (h0 : countId db id = 0) :
    register_new_download fetchInfo db url =
      ⟨db ++ [pendingRowOfInfo info id], [], true⟩ := by
  rw [register_new_download, hfetch]
  simp only [hid]
  rw [insert_media_fresh db info id h0]

/-- With the id already present the insert raises, the exception is caught
and only the informational message is produced. -/
lemma register_new_download_dup (fetchInfo : String → Option VideoInfo)
    (url : String) (info : VideoInfo) (id : String) (db : List MediaRow)
    (hfetch : fetchInfo url = some info) (hid : info.mb_identifier = some id)
    (h1 : countId db id ≠ 0) :
    register_new_download fetchInfo db url =
      ⟨db, [url ++ " is already downloaded or is currently in the queue"], true⟩ := by
  rw [register_new_download, hfetch]
  simp only [hid]
  rw [insert_media_dup db info id h1]

/-- Appending the fresh row raises the id count by one. -/
lemma countId_append_row (db : List MediaRow) (info : VideoInfo) (id : String) :
    countId (db ++ [pendingRowOfInfo info id]) id = countId db id + 1 := by
  simp [countId, List.filter_append, pendingRowOfInfo]

/-- Once the id is present, further `register_new_download` calls are a
no-op on the ledger. -/
lemma registerIter_fixed (fetchInfo : String → Option VideoInfo) (url : String)
    (info : VideoInfo) (id : String)
    (hfetch : fetchInfo url = some info) (hid : info.mb_identifier = some id) :
    ∀ (n : Nat) (db : List MediaRow), countId db id ≠ 0 →
      registerIter fetchInfo url n db = db := by
  intro n
  induction n with
  | zero => intro db _; rfl
  | succ m ih =>
    intro db h1
    simp only [registerIter,
      register_new_download_dup fetchInfo url info id db hfetch hid h1]
    exact ih db h1

/-- C2: repeated `register_new_download` calls resolving to the same id
leave exactly one ledger row with that id: the first call inserts it, each
later call's insert fails with the constraint exception, which is caught
and reported as the informational queue message — the call still returns
normally, creates no row and leaves the existing row unchanged. -/
theorem C2_enqueue_dedup (fetchInfo : String → Option VideoInfo) (url : String)
    (info : VideoInfo) (id : String) (db : List MediaRow)
    (hfetch : fetchInfo url = some info) (hid : info.mb_identifier = some id)
    (h0 : countId db id = 0) :
    ∀ n : Nat, 1 ≤ n →
      registerIter fetchInfo url n db = db ++ [pendingRowOfInfo info id] ∧
      countId (registerIter fetchInfo url n db) id = 1 ∧
      insert_media (registerIter fetchInfo url n db) (pendingRowOfInfo info id) =
        Except.error ConstraintException.primaryKeyViolation ∧
      register_new_download fetchInfo (registerIter fetchInfo url n db) url =
        ⟨registerIter fetchInfo url n db,
         [url ++ " is already downloaded or is currently in the queue"],
         true⟩ := by
  have hcount1 : countId (db ++ [pendingRowOfInfo info id]) id = 1 := by
    rw [countId_append_row, h0]
  intro n hn
  obtain ⟨m, rfl⟩ : ∃ m, n = m + 1 := ⟨n - 1, by omega⟩
  have hiter : registerIter fetchInfo url (m + 1) db =
      db ++ [pendingRowOfInfo info id] := by
    simp only [registerIter,
      register_new_download_fresh fetchInfo url info id db hfetch hid h0]
    exact registerIter_fixed fetchInfo url info id hfetch hid m _
      (by rw [hcount1]; exact one_ne_zero)
  refine ⟨hiter, by rw [hiter]; exact hcount1, ?_, ?_⟩
  · rw [hiter]
    exact insert_media_dup _ info id (by rw [hcount1]; exact one_ne_zero)
  · rw [hiter]
    exact register_new_download_dup fetchInfo url info id _ hfetch hid
      (by rw [hcount1]; exact one_ne_zero)

/-- A concrete `VideoInfo` for the C2 witness. -/
def exInfo : VideoInfo :=
  { mb_identifier := some "a", title := "A", webpage_url := "u",
    video_url := "v", thumbnail := "t", timestamp := 0, mb_path := "p" }

/-- Witness for C2: two enqueues of the same URL on an empty ledger leave
exactly one row, and the second insert attempt fails with the caught
constraint exception. -/
theorem C2_enqueue_dedup_witness :
    registerIter (fun _ => some exInfo) "u" 2 [] =
      [pendingRowOfInfo exInfo "a"] ∧
    countId (registerIter (fun _ => some exInfo) "u" 2 []) "a" = 1 ∧
    insert_media (registerIter (fun _ => some exInfo) "u" 2 [])
        (pendingRowOfInfo exInfo "a") =
      Except.error ConstraintException.primaryKeyViolation := by
  obtain ⟨h1, h2, h3, -⟩ :=
    C2_enqueue_dedup (fun _ => some exInfo) "u" exInfo "a" [] rfl rfl rfl 2
      (by omega)
  exact ⟨by simpa using h1, h2, h3⟩

/-- An MD5 digest is sixteen bytes. -/
lemma md5_length (msg : List Nat) : (md5 msg).length = 16 := by
  simp [md5, leBytes4]

/-- Every MD5 digest byte is below 256. -/
lemma md5_bytes_lt (msg : List Nat) : ∀ b ∈ md5 msg, b < 256 := by
  intro b hb
  simp only [md5, leBytes4, List.append_assoc, List.mem_append,
    List.mem_cons, List.not_mem_nil, or_false] at hb
  rcases hb with (rfl | rfl | rfl | rfl) | (rfl | rfl | rfl | rfl) |
    (rfl | rfl | rfl | rfl) | (rfl | rfl | rfl | rfl) <;>
    exact Nat.mod_lt _ (by norm_num)

/-- The hex string of a byte list has two characters per byte. -/
lemma hexString_length (bs : List Nat) : (hexString bs).length = 2 * bs.length := by
  induction bs with
  | nil => rfl
  | cons b bs ih =>
    simp only [hexString, List.map_cons, List.flatten_cons, String.length_mk,
      List.length_append, List.length_cons, List.length_nil] at ih ⊢
    omega

/-- A hex digit below 16 maps into the lowercase hex alphabet. -/
lemma hexChar_mem (n : Nat) (h : n < 16) : hexChar n ∈ "0123456789abcdef".data := by
  interval_cases n <;> decide

/-- All characters of the hex string of small bytes are lowercase hex
digits. -/
lemma hexString_chars (bs : List Nat) (hb : ∀ b ∈ bs, b < 256) :
    ∀ c ∈ (hexString bs).data, c ∈ "0123456789abcdef".data := by
  induction bs with
  | nil => intro c hc; cases hc
  | cons b bs ih =>
    intro c hc
    simp only [hexString, List.map_cons, List.flatten_cons, String.mk,
      List.cons_append, List.nil_append, List.mem_cons] at hc
    rcases hc with rfl | hc'
    · exact hexChar_mem _ (Nat.div_lt_iff_lt_mul (by norm_num) |>.mpr
        (hb b (List.mem_cons_self b bs)))
    · rcases hc' with rfl | hc''
      · exact hexChar_mem _ (Nat.mod_lt _ (by norm_num))
      · exact ih (fun x hx => hb x (List.mem_cons_of_mem b hx)) c hc''

set_option maxHeartbeats 3200000 in
/-- C3 counterexample: at `(extractor, source_id) = ("example", "v1")` the
identifier the source computes is the MD5 of `"example-v1"` (hyphen
separator), not of `"example__v1"`, and the on-disk directory the download
template produces is the base32 form `b[0:2]/b[2:4]/b`, not the hex form
`h[0:4]/h[4:8]/h` the claim states. -/
theorem C3_counterexample :
    (process_info "example" "v1").hash_hex ≠ specContentId "example" "v1" ∧
    downloadRelDir "example" "v1" ≠ specObjectPath "example" "v1" := by
  constructor <;> decide

set_option maxHeartbeats 3200000 in
/-- C3 (amended): the identifier the downloader computes is the 32-character
lowercase hexadecimal MD5 digest of `extractor ++ "-" ++ source_id`, and the
on-disk directory is `b[0:2]/b[2:4]/b` where `b` is the unpadded base32
encoding of the same digest; both are deterministic functions of
`(extractor, source_id)`. -/
theorem C3_content_address_amended (extractor source_id : String) :
    (process_info extractor source_id).hash_hex =
      hexString (md5 (strBytes (extractor ++ "-" ++ source_id))) ∧
    ((process_info extractor source_id).hash_hex).length = 32 ∧
    (∀ c ∈ ((process_info extractor source_id).hash_hex).data,
      c ∈ "0123456789abcdef".data) ∧
    (process_info extractor source_id).hash_b32 =
      b32encode (md5 (strBytes (extractor ++ "-" ++ source_id))) ∧
    downloadRelDir extractor source_id =
      (process_info extractor source_id).hash_b32.take 2 ++ "/" ++
        ((process_info extractor source_id).hash_b32.drop 2).take 2 ++ "/" ++
        (process_info extractor source_id).hash_b32 := by
  refine ⟨rfl, ?_, ?_, rfl, rfl⟩
  · show (hexString (md5 (strBytes (extractor ++ "-" ++ source_id)))).length = 32
    rw [hexString_length, md5_length]
  · show ∀ c ∈ (hexString (md5 (strBytes (extractor ++ "-" ++ source_id)))).data,
      c ∈ "0123456789abcdef".data
    exact hexString_chars _ (md5_bytes_lt _)

/-- Witness for C3 (amended) at `("example", "v1")`: the hash is the
recorded 32-character digest and its first character is a hex digit. -/
theorem C3_content_address_amended_witness :
    ((process_info "example" "v1").hash_hex).length = 32 ∧
    '7' ∈ "0123456789abcdef".data := by
  obtain ⟨-, h2, h3, -, -⟩ := C3_content_address_amended "example" "v1"
  exact ⟨h2, h3 '7' (by decide)⟩

/-- C7 counterexample: the source's `list_media` differs from the spec's
`list_complete`.  (i) Tag semantics: with `tags = [t1, t2]` a completed row
carrying only `t1` is returned by the code (the join's `IN` filter keeps
rows with *any* given tag) but excluded by the spec's intersection.
(ii) Ordering: `list_media` has no `ORDER BY`, so two completed rows come
back in scan order, not in `timestamp_updated DESC` order. -/
theorem C7_counterexample :
    list_media [exRowT1] [("m1", "t1")] none ["t1", "t2"] = ["A"] ∧
    list_complete_spec [exRowT1] [("m1", "t1")] none ["t1", "t2"] = [] ∧
    list_media [exRowT1] [("m1", "t1")] none ["t1", "t2"] ≠
      list_complete_spec [exRowT1] [("m1", "t1")] none ["t1", "t2"] ∧
    list_media exRowsUnordered [] none [] = ["B", "A"] ∧
    list_complete_spec exRowsUnordered [] none [] = ["A", "B"] := by
  refine ⟨by decide, by decide, by decide, by decide, by decide⟩

/-- C7 (amended): `list_media` returns exactly the titles of rows in status
`complete` that pass the title filter (the pattern `%w1%…%wk%` matched
case-insensitively) and — when tags are given — have at least one of the
given tags, one output row per matching `(row, tag)` pair, in table scan
order with no ordering guarantee. -/
theorem C7_list_media_amended (db : List MediaRow)
    (tagRows : List (String × String)) (title_like : Option String)
    (tags : List String) (t : String) :
    t ∈ list_media db tagRows title_like tags ↔
      ∃ m ∈ db, m.status = MediaStatus.complete ∧
        titleFilter title_like m.title = true ∧ t = m.title ∧
        (tags = [] ∨ ∃ p ∈ tagRows, p.1 = m.id ∧ p.2 ∈ tags) := by
  by_cases htags : tags = []
  · subst htags
    rw [list_media, if_pos rfl]
    constructor
    · intro ht
      obtain ⟨m, hm, rfl⟩ := List.mem_map.mp ht
      obtain ⟨hmdb, hcond⟩ := List.mem_filter.mp hm
      obtain ⟨hst, htf⟩ := Bool.and_eq_true_iff.mp hcond
      exact ⟨m, hmdb, beq_iff_eq.mp hst, htf, rfl, Or.inl rfl⟩
    · rintro ⟨m, hmdb, hst, htf, rfl, -⟩
      exact List.mem_map.mpr ⟨m, List.mem_filter.mpr
        ⟨hmdb, Bool.and_eq_true_iff.mpr ⟨beq_iff_eq.mpr hst, htf⟩⟩, rfl⟩
  · rw [list_media, if_neg htags]
    constructor
    · intro ht
      obtain ⟨m, hmdb, hmem⟩ := List.mem_flatMap.mp ht
      by_cases hc : (m.status == MediaStatus.complete &&
          titleFilter title_like m.title) = true
      · rw [if_pos hc] at hmem
        obtain ⟨p, hp, hpt⟩ := List.mem_map.mp hmem
        obtain ⟨hpdb, hcond⟩ := List.mem_filter.mp hp
        obtain ⟨hpid, hptag⟩ := Bool.and_eq_true_iff.mp hcond
        obtain ⟨hst, htf⟩ := Bool.and_eq_true_iff.mp hc
        exact ⟨m, hmdb, beq_iff_eq.mp hst, htf, hpt.symm,
          Or.inr ⟨p, hpdb, beq_iff_eq.mp hpid,
            List.contains_iff_exists_mem_beq.mp hptag |>.elim
              fun x hx => by
                obtain ⟨hxmem, hxbeq⟩ := hx
                exact (beq_iff_eq.mp hxbeq) ▸ hxmem⟩⟩
      · rw [if_neg hc] at hmem
        cases hmem
    · rintro ⟨m, hmdb, hst, htf, rfl, hdisj⟩
      rcases hdisj with h | ⟨p, hp, hpid, hptag⟩
      · exact absurd h htags
      apply List.mem_flatMap.mpr
      refine ⟨m, hmdb, ?_⟩
      rw [if_pos (Bool.and_eq_true_iff.mpr ⟨beq_iff_eq.mpr hst, htf⟩)]
      exact List.mem_map.mpr ⟨p, List.mem_filter.mpr ⟨hp, Bool.and_eq_true_iff.mpr
        ⟨beq_iff_eq.mpr hpid,
         List.contains_iff_exists_mem_beq.mpr ⟨p.2, hptag, beq_self_eq_true _⟩⟩⟩,
        rfl⟩

/-- The recorded-version set after an ascending up-pass. -/
lemma foldl_up_applied {σ : Type} (up : Nat → σ → σ) :
    ∀ (l : List Nat) (st : σ × Finset Nat),
      (l.foldl (fun t v => apply_migration_up up v t) st).2 =
        st.2 ∪ l.toFinset := by
  intro l
  induction l with
  | nil => intro st; simp
  | cons v l ih =>
    intro st
    rw [List.foldl_cons, ih]
    simp only [apply_migration_up, List.toFinset_cons]
    rw [Finset.insert_union, Finset.union_insert]

/-- Applying the down scripts in reverse order undoes an up-pass, both on
the schema and on the recorded set, as long as the versions are fresh and
distinct. -/
lemma up_down_cancel {σ : Type} (up down : Nat → σ → σ)
    (hinv : ∀ v s, down v (up v s) = s) :
    ∀ (l : List Nat) (st : σ × Finset Nat), l.Nodup → (∀ v ∈ l, v ∉ st.2) →
      l.reverse.foldl (fun t v => apply_migration_down down v t)
        (l.foldl (fun t v => apply_migration_up up v t) st) = st := by
  intro l
  induction l with
  | nil => intro st _ _; rfl
  | cons v l ih =>
    intro st hnd hfresh
    have hvl : v ∉ l := (List.nodup_cons.mp hnd).1
    have hfresh' : ∀ w ∈ l, w ∉ (apply_migration_up up v st).2 := by
      intro w hw
      simp only [apply_migration_up, Finset.mem_insert, not_or]
      exact ⟨fun h => hvl (h ▸ hw), hfresh w (List.mem_cons_of_mem v hw)⟩
    rw [List.reverse_cons, List.foldl_cons, List.foldl_append,
      ih (apply_migration_up up v st) (List.nodup_cons.mp hnd).2 hfresh']
    simp only [List.foldl_cons, List.foldl_nil, apply_migration_down,
      apply_migration_up, hinv]
    exact Prod.ext rfl (Finset.erase_insert (hfresh v (List.mem_cons_self v l)))

/-- The descending filtered key list equals the reversed ascending one when
the two filters agree on the keys. -/
lemma sortDesc_filter_eq_reverse (migs : List Nat) (p q : Nat → Bool)
    (hpq : ∀ v ∈ migs, q v = p v) :
    (sortDesc migs).filter q = ((sortAsc migs).filter p).reverse := by
  have hperm : List.Perm ((sortDesc migs).filter q)
      (((sortAsc migs).filter p).reverse) := by
    have h1 : List.Perm ((sortDesc migs).filter q) (migs.filter q) :=
      (List.perm_insertionSort _ migs).filter q
    have h2 : List.Perm (((sortAsc migs).filter p).reverse) (migs.filter p) :=
      (List.reverse_perm _).trans ((List.perm_insertionSort _ migs).filter p)
    rw [List.filter_congr hpq] at h1
    exact h1.trans h2.symm
  have hs1 : List.Sorted (fun a b : Nat => a ≥ b) ((sortDesc migs).filter q) :=
    List.Sorted.filter q (List.sorted_insertionSort _ migs)
  have hs2 : List.Sorted (fun a b : Nat => a ≥ b)
      (((sortAsc migs).filter p).reverse) := by
    rw [List.Sorted, List.pairwise_reverse]
    exact List.Sorted.filter p
      (List.sorted_insertionSort (fun a b : Nat => a ≤ b) migs)
  exact List.eq_of_perm_of_sorted hperm hs1 hs2

/-- C9 (scripts spec-modelled): for a database at schema version `a` —
recorded versions are the available versions `≤ a`, with maximum `a` — and
all script files present (`up v` / `down v` total, each down script
inverting its up script), migrating up to `b ≥ a` and then down to `a`
restores the schema to its starting state, and `_schema_migrations` again
holds exactly the available versions `≤ a`. -/
theorem C9_migration_round_trip {σ : Type} (up down : Nat → σ → σ)
    (hinv : ∀ v s, down v (up v s) = s)
    (migs : List Nat) (hnd : migs.Nodup) (a b : Nat) (hab : a ≤ b)
    (s0 : σ) (A0 : Finset Nat)
    (hA0 : A0 = (migs.filter fun v => decide (v ≤ a)).toFinset)
    (hcur : get_current_version A0 = a) :
    migrate_to_version up down migs a
      (migrate_to_version up down migs b (s0, A0)) = (s0, A0) ∧
    (migrate_to_version up down migs a
      (migrate_to_version up down migs b (s0, A0))).2 =
      (migs.filter fun v => decide (v ≤ a)).toFinset := by
  suffices h : migrate_to_version up down migs a
      (migrate_to_version up down migs b (s0, A0)) = (s0, A0) by
    refine ⟨h, ?_⟩
    rw [h]
    exact hA0
  rcases Nat.eq_or_lt_of_le hab with rfl | hlt
  · have hnop : migrate_to_version up down migs a (s0, A0) = (s0, A0) := by
      have hcur' : get_current_version (s0, A0).2 = a := hcur
      simp [migrate_to_version, hcur']
    rw [hnop, hnop]
  · set L := (sortAsc migs).filter
      (fun v => decide (a < v) && decide (v ≤ b)) with hLdef
    have hcur' : get_current_version (s0, A0).2 = a := hcur
    have hstep1 : migrate_to_version up down migs b (s0, A0) =
        L.foldl (fun t v => apply_migration_up up v t) (s0, A0) := by
      simp only [migrate_to_version, migrate_up_to]
      rw [hcur', if_pos hlt]
    have hL_mem : ∀ v ∈ L, a < v ∧ v ≤ b := by
      intro v hv
      have h2 := (List.mem_filter.mp hv).2
      simp only [Bool.and_eq_true_iff, decide_eq_true_eq] at h2
      exact h2
    have hL_migs : ∀ v ∈ L, v ∈ migs := fun v hv =>
      ((List.perm_insertionSort (fun x y : Nat => x ≤ y) migs).mem_iff).mp
        (List.mem_filter.mp hv).1
    have hA0_le : ∀ w ∈ A0, w ≤ a := by
      intro w hw
      have h : id w ≤ A0.sup id := Finset.le_sup hw
      rw [← hcur]
      exact h
    have hL_fresh : ∀ v ∈ L, v ∉ A0 := by
      intro v hv hvA
      exact absurd (hA0_le v hvA) (not_le.mpr (hL_mem v hv).1)
    have hL_nodup : L.Nodup :=
      (((List.perm_insertionSort (fun x y : Nat => x ≤ y) migs).nodup_iff).mpr
        hnd).filter _
    have hst1A : (L.foldl (fun t v => apply_migration_up up v t) (s0, A0)).2 =
        A0 ∪ L.toFinset := foldl_up_applied up L (s0, A0)
    by_cases hLnil : L = []
    · have hid : L.foldl (fun t v => apply_migration_up up v t) (s0, A0) =
          (s0, A0) := by rw [hLnil]; rfl
      rw [hstep1, hid]
      have hcur2 : get_current_version (s0, A0).2 = a := hcur
      simp [migrate_to_version, hcur2]
    · have hcval : get_current_version
          (L.foldl (fun t v => apply_migration_up up v t) (s0, A0)).2 =
          A0.sup id ⊔ L.toFinset.sup id := by
        rw [hst1A]
        exact Finset.sup_union
      have hsupL_le_b : L.toFinset.sup id ≤ b :=
        Finset.sup_le fun v hv => (hL_mem v (List.mem_toFinset.mp hv)).2
      have ha_lt_c : a < get_current_version
          (L.foldl (fun t v => apply_migration_up up v t) (s0, A0)).2 := by
        obtain ⟨v, hv⟩ := List.exists_mem_of_ne_nil L hLnil
        have h1 : id v ≤ L.toFinset.sup id := Finset.le_sup (List.mem_toFinset.mpr hv)
        have h2 : a < v := (hL_mem v hv).1
        rw [hcval]
        exact lt_of_lt_of_le (lt_of_lt_of_le h2 h1) le_sup_right
      have hc_le_b : get_current_version
          (L.foldl (fun t v => apply_migration_up up v t) (s0, A0)).2 ≤ b := by
        rw [hcval, show A0.sup id = a from hcur]
        exact sup_le hab hsupL_le_b
      have hpq : ∀ v ∈ migs,
          (decide (a < v) && decide (v ≤ get_current_version
            (L.foldl (fun t v => apply_migration_up up v t) (s0, A0)).2)) =
          (decide (a < v) && decide (v ≤ b)) := by
        intro v hvm
        by_cases h1 : a < v
        · have hiff : (v ≤ get_current_version
              (L.foldl (fun t v => apply_migration_up up v t) (s0, A0)).2) ↔
              (v ≤ b) := by
            constructor
            · exact fun h => le_trans h hc_le_b
            · intro h
              have hvL : v ∈ L := by
                rw [hLdef]
                refine List.mem_filter.mpr ⟨?_, ?_⟩
                · exact ((List.perm_insertionSort
                    (fun x y : Nat => x ≤ y) migs).mem_iff).mpr hvm
                · simp [h1, h]
              have hle : id v ≤ L.toFinset.sup id :=
                Finset.le_sup (List.mem_toFinset.mpr hvL)
              rw [hcval]
              exact le_trans hle le_sup_right
          exact congrArg (fun x => decide (a < v) && x)
            (decide_eq_decide.mpr hiff)
        · have h1f : decide (a < v) = false := decide_eq_false h1
          rw [h1f, Bool.false_and, Bool.false_and]
      have hdown_eq : (sortDesc migs).filter
          (fun v => decide (a < v) && decide (v ≤ get_current_version
            (L.foldl (fun t v => apply_migration_up up v t) (s0, A0)).2)) =
          L.reverse :=
        sortDesc_filter_eq_reverse migs _ _ hpq
      have hstep2 : migrate_to_version up down migs a
          (L.foldl (fun t v => apply_migration_up up v t) (s0, A0)) =
          L.reverse.foldl (fun t v => apply_migration_down down v t)
            (L.foldl (fun t v => apply_migration_up up v t) (s0, A0)) := by
        simp only [migrate_to_version, migrate_down_to]
        rw [if_neg (not_lt.mpr (le_of_lt ha_lt_c)), if_pos ha_lt_c, hdown_eq]
      rw [hstep1, hstep2]
      exact up_down_cancel up down hinv L (s0, A0) hL_nodup hL_fresh

/-- Witness for C9: three migrations (adding `v` to a counter schema going
up, subtracting going down), from version 1 up to 3 and back down to 1. -/
theorem C9_migration_round_trip_witness :
    migrate_to_version (fun v s => s + v) (fun v s => s - v) [1, 2, 3] 1
      (migrate_to_version (fun v s => s + v) (fun v s => s - v) [1, 2, 3] 3
        (0, ({1} : Finset Nat))) = (0, ({1} : Finset Nat)) := by
  obtain ⟨h, -⟩ := C9_migration_round_trip (fun v s => s + v) (fun v s => s - v)
    (fun v s => by show s + v - v = s; omega) [1, 2, 3] (by decide) 1 3
    (by omega) 0 {1}
    (by decide) (by decide)
  exact h

end Mediabin
